import Mathlib

/-
  Verification of the batch-spec-resolution-job store
  (enterprise/internal/batches/store/batch_spec_resolution_jobs.go).

  The store is a thin layer over one Postgres table,
  `batch_spec_resolution_jobs`.  We embed the table as a `List Row`
  (NULLable columns as `Option`), the two query builders as lists of row
  predicates (the WHERE clause is their conjunction), and statement
  execution as a pure function that also returns the table after the
  statement ran.  `time.Time` is embedded as `Nat`, with `0` standing for
  the Go zero time (`IsZero`).  The job state type
  (`btypes.BatchSpecResolutionJobState`) is a string type in Go, so it is
  embedded as `String`.
-/

namespace BatchesStore

/-- Go `time.Time`; `0` is the zero time (`t.IsZero()` becomes `t = 0`). -/
abbrev Time := Nat

/-- The type `btypes.BatchSpecResolutionJobState` is a string type in Go. -/
abbrev BatchSpecResolutionJobState := String

def BatchSpecResolutionJobStateQueued : BatchSpecResolutionJobState := "queued"

def BatchSpecResolutionJobStateProcessing : BatchSpecResolutionJobState := "processing"

/-- Embeds `btypes.BatchSpecResolutionJob`: the Go struct the store scans rows into.
`FailureMessage` is a `*string` in Go, embedded as `Option String`; the
`time.Time` fields are not pointers, so NULL columns scan to the zero time. -/
structure BatchSpecResolutionJob where
  ID : Int
  BatchSpecID : Int
  AllowUnsupported : Bool
  AllowIgnored : Bool
  State : BatchSpecResolutionJobState
  FailureMessage : Option String
  StartedAt : Time
  FinishedAt : Time
  ProcessAfter : Time
  NumResets : Int
  NumFailures : Int
  ExecutionLogs : List String
  WorkerHostname : String
  CreatedAt : Time
  UpdatedAt : Time
  deriving DecidableEq

/-- One row of the `batch_spec_resolution_jobs` table, with the columns of
`BatchSpecResolutionJobColums`; NULLable columns are `Option`. -/
structure Row where
  id : Int
  batch_spec_id : Int
  allow_unsupported : Bool
  allow_ignored : Bool
  state : String
  failure_message : Option String
  started_at : Option Time
  finished_at : Option Time
  process_after : Option Time
  num_resets : Int
  num_failures : Int
  execution_logs : List String
  worker_hostname : String
  created_at : Time
  updated_at : Time
  deriving DecidableEq

/-- Errors a store call can surface: the package-level sentinel
`store.ErrNoResults`, and the database rejecting a malformed statement
(such as a `WHERE` clause with no predicate at all). -/
inductive StoreError
  | ErrNoResults
  | invalidQuery
  deriving DecidableEq

instance {ε α : Type} [DecidableEq ε] [DecidableEq α] : DecidableEq (Except ε α) := fun x y =>
  match x, y with
  | .error a, .error b =>
      if h : a = b then isTrue (by rw [h]) else isFalse (by simp [h])
  | .error _, .ok _ => isFalse (by simp)
  | .ok _, .error _ => isFalse (by simp)
  | .ok a, .ok b =>
      if h : a = b then isTrue (by rw [h]) else isFalse (by simp [h])

/-- The zero value of `btypes.BatchSpecResolutionJob`, as declared by
`var c btypes.BatchSpecResolutionJob` in `GetBatchSpecResolutionJob`. -/
def zeroBatchSpecResolutionJob : BatchSpecResolutionJob :=
  { ID := 0, BatchSpecID := 0, AllowUnsupported := false, AllowIgnored := false,
    State := "", FailureMessage := none, StartedAt := 0, FinishedAt := 0,
    ProcessAfter := 0, NumResets := 0, NumFailures := 0, ExecutionLogs := [],
    WorkerHostname := "", CreatedAt := 0, UpdatedAt := 0 }

/-- Embeds `scanBatchSpecResolutionJob`: scans one row into a job.  `failure_message`
goes through `dbutil.NullString` (NULL becomes `""`), and the pointer field is
set only when the scanned string is non-empty; the NULL times go through
`dbutil.NullTime` (NULL becomes the zero time). -/
def scanBatchSpecResolutionJob (r : Row) : BatchSpecResolutionJob :=
  let failureMessage := r.failure_message.getD ""
  { ID := r.id
    BatchSpecID := r.batch_spec_id
    AllowUnsupported := r.allow_unsupported
    AllowIgnored := r.allow_ignored
    State := r.state
    FailureMessage := if failureMessage ≠ "" then some failureMessage else none
    StartedAt := r.started_at.getD 0
    FinishedAt := r.finished_at.getD 0
    ProcessAfter := r.process_after.getD 0
    NumResets := r.num_resets
    NumFailures := r.num_failures
    ExecutionLogs := r.execution_logs
    WorkerHostname := r.worker_hostname
    CreatedAt := r.created_at
    UpdatedAt := r.updated_at }

/-- Embeds `GetBatchSpecResolutionJobOpts`. -/
structure GetBatchSpecResolutionJobOpts where
  ID : Int
  BatchSpecID : Int
  deriving DecidableEq

/-- The predicate list built by `getBatchSpecResolutionJobQuery`: one
conjunct per non-zero option, in the order the Go code appends them. -/
def getBatchSpecResolutionJobQueryPreds (opts : GetBatchSpecResolutionJobOpts) :
    List (Row → Bool) :=
  (if opts.ID ≠ 0 then [fun r => r.id == opts.ID] else []) ++
    (if opts.BatchSpecID ≠ 0 then [fun r => r.batch_spec_id == opts.BatchSpecID] else [])

/-- A row satisfies the WHERE clause `sqlf.Join(preds, "AND")` when every
predicate holds of it. -/
def matchesAll (preds : List (Row → Bool)) (r : Row) : Bool :=
  preds.all fun p => p r

/-- The relation of `ORDER BY id ASC`. -/
def rowIdLE (a b : Row) : Prop := a.id ≤ b.id

instance : DecidableRel rowIdLE := fun a b => Int.decLe a.id b.id

instance : IsTotal Row rowIdLE := ⟨fun a b => Int.le_total a.id b.id⟩

instance : IsTrans Row rowIdLE := ⟨fun _ _ _ h1 h2 => le_trans h1 h2⟩

/-- Executes one SELECT statement against the table, as both query format
strings shape it: `SELECT cols FROM batch_spec_resolution_jobs WHERE %s`,
optionally `ORDER BY id ASC`, optionally `LIMIT n`.  Both builders always
interpolate `sqlf.Join(preds, "AND")` into `WHERE %s`, so an empty
predicate list yields `WHERE` followed by nothing — a malformed statement
the database rejects.  A SELECT never changes the table, so the table
comes back unchanged next to the result set. -/
def runSelect (preds : List (Row → Bool)) (orderById : Bool) (limit : Option Nat)
    (table : List Row) : Except StoreError (List Row) × List Row :=
  if preds.isEmpty then (.error .invalidQuery, table)
  else
    let matched := table.filter (matchesAll preds)
    let ordered := if orderById then List.insertionSort rowIdLE matched else matched
    let limited := match limit with | some n => ordered.take n | none => ordered
    (.ok limited, table)

/-- Embeds `GetBatchSpecResolutionJob`: runs the `LIMIT 1` query of
`getBatchSpecResolutionJobsQueryFmtstr` (no ORDER BY), scans the returned
row (if any) into the zero-valued `c`, and returns `ErrNoResults` when
`c.ID` is still `0`. -/
def GetBatchSpecResolutionJob (table : List Row) (opts : GetBatchSpecResolutionJobOpts) :
    Except StoreError BatchSpecResolutionJob × List Row :=
  ((match (runSelect (getBatchSpecResolutionJobQueryPreds opts) false (some 1) table).1 with
    | .error e => .error e
    | .ok rows =>
        let c := match rows with
          | [] => zeroBatchSpecResolutionJob
          | r :: _ => scanBatchSpecResolutionJob r
        if c.ID = 0 then .error .ErrNoResults else .ok c),
   (runSelect (getBatchSpecResolutionJobQueryPreds opts) false (some 1) table).2)

/-- Embeds `ListBatchSpecResolutionJobsOpts`. -/
structure ListBatchSpecResolutionJobsOpts where
  State : BatchSpecResolutionJobState
  WorkerHostname : String
  deriving DecidableEq

/-- The predicate list built by `listBatchSpecResolutionJobsQuery`: one
conjunct per non-empty option, with a `TRUE` fallback when no option is
set. -/
def listBatchSpecResolutionJobsQueryPreds (opts : ListBatchSpecResolutionJobsOpts) :
    List (Row → Bool) :=
  let preds :=
    (if opts.State ≠ "" then [fun r => r.state == opts.State] else []) ++
      (if opts.WorkerHostname ≠ "" then [fun r => r.worker_hostname == opts.WorkerHostname] else [])
  if preds.isEmpty then [fun _ => true] else preds

/-- Embeds `ListBatchSpecResolutionJobs`: runs the `ORDER BY id ASC` query of
`listBatchSpecResolutionJobsQueryFmtstr` and scans every returned row.
The Go function initialises `cs` with `make(..., 0)`, a non-nil slice, so
the slice result is embedded as `Option (List _)` with `none` standing
for a nil Go slice — this function always returns `some`. -/
def ListBatchSpecResolutionJobs (table : List Row) (opts : ListBatchSpecResolutionJobsOpts) :
    (Option (List BatchSpecResolutionJob) × Option StoreError) × List Row :=
  ((match (runSelect (listBatchSpecResolutionJobsQueryPreds opts) true none table).1 with
    | .error e => (some [], some e)
    | .ok rows => (some (rows.map scanBatchSpecResolutionJob), none)),
   (runSelect (listBatchSpecResolutionJobsQueryPreds opts) true none table).2)

/-- The job list a `ListBatchSpecResolutionJobs` call hands back (empty when
the slice would be nil, which never happens). -/
def listedJobs (table : List Row) (opts : ListBatchSpecResolutionJobsOpts) :
    List BatchSpecResolutionJob :=
  ((ListBatchSpecResolutionJobs table opts).1.1).getD []

/-- Embeds `scanBatchSpecResolutionJobs`: propagates a query error, else scans all
rows. -/
def scanBatchSpecResolutionJobs (rows : List Row) (queryErr : Option StoreError) :
    List BatchSpecResolutionJob × Option StoreError :=
  match queryErr with
  | some e => ([], some e)
  | none => (rows.map scanBatchSpecResolutionJob, none)

/-- Embeds `ScanFirstBatchSpecResolutionJob`: a `(nil, false, err)` triple on error or an
empty row set, else the first job with `true` and no error. -/
def ScanFirstBatchSpecResolutionJob (rows : List Row) (err : Option StoreError) :
    Option BatchSpecResolutionJob × Bool × Option StoreError :=
  match scanBatchSpecResolutionJobs rows err with
  | (_, some e) => (none, false, some e)
  | ([], none) => (none, false, none)
  | (j :: _, none) => (some j, true, none)

/-- The values of `batchSpecResolutionJobInsertColumns` that
`CreateBatchSpecResolutionJob` hands to the batch inserter for one job. -/
structure InsertValues where
  batch_spec_id : Int
  allow_unsupported : Bool
  allow_ignored : Bool
  state : String
  created_at : Time
  updated_at : Time
  deriving DecidableEq

/-- The per-job body of the inserter closure of `CreateBatchSpecResolutionJob`:
a zero `CreatedAt` becomes `s.now()`, a zero `UpdatedAt` becomes the
(possibly just-set) `CreatedAt`, an empty `State` is inserted as `queued`
(the state default stays local — it is not written back to the job).
Returns the mutated job together with the inserted column values. -/
def createBatchSpecResolutionJobValues (now : Time) (wj : BatchSpecResolutionJob) :
    BatchSpecResolutionJob × InsertValues :=
  let createdAt := if wj.CreatedAt = 0 then now else wj.CreatedAt
  let updatedAt := if wj.UpdatedAt = 0 then createdAt else wj.UpdatedAt
  let state := if wj.State = "" then BatchSpecResolutionJobStateQueued else wj.State
  ({ wj with CreatedAt := createdAt, UpdatedAt := updatedAt },
   { batch_spec_id := wj.BatchSpecID
     allow_unsupported := wj.AllowUnsupported
     allow_ignored := wj.AllowIgnored
     state := state
     created_at := createdAt
     updated_at := updatedAt })

/-- Modelled from the spec: the columns not in
`batchSpecResolutionJobInsertColumns` take their schema defaults on INSERT
(the migration is not among the sampled files) — §3: `worker_hostname` is
empty while queued, the optional timestamps and the failure message are
absent, the counters start at zero and the log is empty; `id` is assigned
by the database. -/
def newRowFromInsert (vals : InsertValues) (id : Int) : Row :=
  { id := id
    batch_spec_id := vals.batch_spec_id
    allow_unsupported := vals.allow_unsupported
    allow_ignored := vals.allow_ignored
    state := vals.state
    failure_message := none
    started_at := none
    finished_at := none
    process_after := none
    num_resets := 0
    num_failures := 0
    execution_logs := []
    worker_hostname := ""
    created_at := vals.created_at
    updated_at := vals.updated_at }

/-- The INSERT a create issues for one job: unlike a SELECT, it extends the
table. -/
def runInsert (vals : InsertValues) (id : Int) (table : List Row) : List Row :=
  table ++ [newRowFromInsert vals id]

/-- The FIFO claim order of the Claim Engine (spec §4.2/§5): creation time,
then id as tie-break. -/
def claimOrder (a b : Row) : Prop :=
  a.created_at < b.created_at ∨ (a.created_at = b.created_at ∧ a.id ≤ b.id)

instance : DecidableRel claimOrder := fun a b =>
  inferInstanceAs (Decidable (a.created_at < b.created_at ∨
    (a.created_at = b.created_at ∧ a.id ≤ b.id)))

/-- Spec §4.2: a row is eligible for claim when it is `queued` and its
`process_after` is absent or has passed. -/
def eligibleForClaim (now : Time) (r : Row) : Bool :=
  r.state == BatchSpecResolutionJobStateQueued &&
    (match r.process_after with | none => true | some t => decide (t ≤ now))

/-- Modelled from the spec: the Claim Engine operation
`dequeue(workerHostname) → Job | none` (§4.2) — its dbworker implementation
is not among the sampled files.  Atomically select the first eligible row
in FIFO order (creation time, then id), transition it to `processing`, set
`started_at = now` and the hostname of the claiming worker; `updated_at` is refreshed as
on every mutation (§3).  The whole step is one indivisible transition of
the table, per the atomicity requirement of the spec, so concurrent claimers
interleave as sequential `dequeue` steps. -/
def dequeue (now : Time) (workerHostname : String) (table : List Row) :
    Option Row × List Row :=
  match (List.insertionSort claimOrder table).find? (eligibleForClaim now) with
  | none => (none, table)
  | some r =>
      let r' := { r with state := BatchSpecResolutionJobStateProcessing,
                         worker_hostname := workerHostname,
                         started_at := some now,
                         updated_at := now }
      (some r', table.map fun x => if x.id = r.id then r' else x)

/-- The claim-mutual-exclusion side condition: every row of the table that
carries the given id is in state `processing`. -/
def stillProcessing (i : Int) (table : List Row) : Bool :=
  table.all fun r => !(r.id == i) || (r.state == BatchSpecResolutionJobStateProcessing)

/-- Both query execution outcomes of a SELECT leave the table as it was. -/
theorem runSelect_snd (preds : List (Row → Bool)) (orderById : Bool) (limit : Option Nat)
    (table : List Row) : (runSelect preds orderById limit table).2 = table := by
  unfold runSelect
  split <;> rfl

/-- The list query builder never produces an empty predicate list: with no
options set it falls back to the single `TRUE` predicate. -/
theorem listPreds_isEmpty_false (opts : ListBatchSpecResolutionJobsOpts) :
    (listBatchSpecResolutionJobsQueryPreds opts).isEmpty = false := by
  unfold listBatchSpecResolutionJobsQueryPreds
  by_cases h1 : opts.State = "" <;> by_cases h2 : opts.WorkerHostname = "" <;> simp [h1, h2]

/-- When no row of the table satisfies the WHERE clause, the filter step of a
SELECT produces the empty result set. -/
theorem filter_nil_of_all_negated (table : List Row) (preds : List (Row → Bool))
    (h : table.all (fun r => !(matchesAll preds r)) = true) :
    table.filter (matchesAll preds) = [] := by
  rw [List.filter_eq_nil_iff]
  intro r hr
  have hx := List.all_eq_true.mp h r hr
  simp at hx
  simp [hx]

/-- The jobs a list call returns are exactly the matching rows, sorted by id
and scanned. -/
theorem listedJobs_eq (table : List Row) (opts : ListBatchSpecResolutionJobsOpts) :
    listedJobs table opts
      = (List.insertionSort rowIdLE
          (table.filter (matchesAll (listBatchSpecResolutionJobsQueryPreds opts)))).map
            scanBatchSpecResolutionJob := by
  unfold listedJobs ListBatchSpecResolutionJobs runSelect
  simp [listPreds_isEmpty_false opts]

/-- C1: no two claim calls ever return the same job row.  After a `dequeue`
returns a job, every row of the new table carrying that id is in state
`processing`; and as long as every row carrying that id is still
`processing`, any later `dequeue` — by any worker, at any time, on any
intervening table — returns a job with a different id.  Concurrent claim
calls interleave as sequential atomic `dequeue` steps, so at any instant at
most one worker holds a given row in `processing`. -/
theorem dequeue_mutual_exclusion
    (now1 : Time) (hostA : String) (table : List Row) (j1 : Row) (s1 : List Row)
    (h1 : dequeue now1 hostA table = (some j1, s1))
    (mid : List Row) (hstill : stillProcessing j1.id mid = true)
    (now2 : Time) (hostB : String) (j2 : Row) (s2 : List Row)
    (h2 : dequeue now2 hostB mid = (some j2, s2)) :
    stillProcessing j1.id s1 = true ∧ j1.id ≠ j2.id := by
  unfold dequeue at h1
  rcases hf1 : (List.insertionSort claimOrder table).find? (eligibleForClaim now1) with _ | r1
  · rw [hf1] at h1; exact absurd h1 (by simp)
  · rw [hf1] at h1
    simp only [Prod.mk.injEq, Option.some.injEq] at h1
    obtain ⟨hj1, hs1⟩ := h1
    subst hj1
    subst hs1
    constructor
    · rw [stillProcessing, List.all_eq_true]
      intro x hx
      obtain ⟨y, hy, rfl⟩ := List.mem_map.mp hx
      by_cases hyid : y.id = r1.id
      · simp [hyid]
      · simp [hyid]
    · unfold dequeue at h2
      rcases hf2 : (List.insertionSort claimOrder mid).find? (eligibleForClaim now2) with _ | r2
      · rw [hf2] at h2; exact absurd h2 (by simp)
      · rw [hf2] at h2
        simp only [Prod.mk.injEq, Option.some.injEq] at h2
        obtain ⟨hj2, hs2⟩ := h2
        have helig := List.find?_some hf2
        have hmem : r2 ∈ mid := (List.mem_insertionSort _).mp (List.mem_of_find?_eq_some hf2)
        have hq2 : r2.state = BatchSpecResolutionJobStateQueued := by
          rw [eligibleForClaim, Bool.and_eq_true] at helig
          simpa using helig.1
        intro heq
        have hid2 : r2.id = r1.id := by
          rw [← hj2] at heq
          simpa using heq.symm
        have hx := List.all_eq_true.mp (by rwa [stillProcessing] at hstill) r2 hmem
        rw [hid2] at hx
        simp [hq2] at hx
        rw [BatchSpecResolutionJobStateQueued, BatchSpecResolutionJobStateProcessing] at hx
        exact absurd hx (by decide)

theorem dequeue_mutual_exclusion_witness :
    stillProcessing
        (⟨1, 7, false, false, "processing", none, some 10, none, none, 0, 0, [], "A", 1, 10⟩ : Row).id
        [⟨1, 7, false, false, "processing", none, some 10, none, none, 0, 0, [], "A", 1, 10⟩,
         ⟨2, 8, false, false, "queued", none, none, none, none, 0, 0, [], "", 2, 2⟩] = true
    ∧ (⟨1, 7, false, false, "processing", none, some 10, none, none, 0, 0, [], "A", 1, 10⟩ : Row).id
        ≠ (⟨2, 8, false, false, "processing", none, some 20, none, none, 0, 0, [], "B", 2, 20⟩ : Row).id :=
  dequeue_mutual_exclusion 10 "A"
    [⟨1, 7, false, false, "queued", none, none, none, none, 0, 0, [], "", 1, 1⟩,
     ⟨2, 8, false, false, "queued", none, none, none, none, 0, 0, [], "", 2, 2⟩]
    ⟨1, 7, false, false, "processing", none, some 10, none, none, 0, 0, [], "A", 1, 10⟩
    [⟨1, 7, false, false, "processing", none, some 10, none, none, 0, 0, [], "A", 1, 10⟩,
     ⟨2, 8, false, false, "queued", none, none, none, none, 0, 0, [], "", 2, 2⟩]
    (by decide)
    [⟨1, 7, false, false, "processing", none, some 10, none, none, 0, 0, [], "A", 1, 10⟩,
     ⟨2, 8, false, false, "queued", none, none, none, none, 0, 0, [], "", 2, 2⟩]
    (by decide) 20 "B"
    ⟨2, 8, false, false, "processing", none, some 20, none, none, 0, 0, [], "B", 2, 20⟩
    [⟨1, 7, false, false, "processing", none, some 10, none, none, 0, 0, [], "A", 1, 10⟩,
     ⟨2, 8, false, false, "processing", none, some 20, none, none, 0, 0, [], "B", 2, 20⟩]
    (by decide)

/-- C2 counterexample: on the empty table, a get whose options match no row
returns the sentinel error `ErrNoResults` — the call result is an error
surfaced to the caller, not an ok/empty result, so the claim that not-found
is expressed as an empty/optional result rather than an error is false as
stated. -/
theorem get_not_found_surfaced_as_error :
    (GetBatchSpecResolutionJob [] ⟨1, 0⟩).1 = .error .ErrNoResults
    ∧ (GetBatchSpecResolutionJob [] ⟨1, 0⟩).1.isOk = false := by
  decide

/-- C2 amended: a get whose options match no stored row returns the
distinguishable sentinel error `ErrNoResults` (with a nil job) — absence is
distinguishable from other failures, but it is surfaced as an error value to
the caller. -/
theorem get_not_found_returns_ErrNoResults (table : List Row)
    (opts : GetBatchSpecResolutionJobOpts)
    (hopts : ¬(opts.ID = 0 ∧ opts.BatchSpecID = 0))
    (hnone : table.all
      (fun r => !(matchesAll (getBatchSpecResolutionJobQueryPreds opts) r)) = true) :
    (GetBatchSpecResolutionJob table opts).1 = .error .ErrNoResults := by
  have hne : (getBatchSpecResolutionJobQueryPreds opts).isEmpty = false := by
    unfold getBatchSpecResolutionJobQueryPreds
    by_cases h1 : opts.ID = 0
    · have h2 : opts.BatchSpecID ≠ 0 := fun h2 => hopts ⟨h1, h2⟩
      simp [h1, h2]
    · simp [h1]
  have hfil := filter_nil_of_all_negated table (getBatchSpecResolutionJobQueryPreds opts) hnone
  unfold GetBatchSpecResolutionJob runSelect
  simp [hne, hfil, zeroBatchSpecResolutionJob]

theorem get_not_found_returns_ErrNoResults_witness :
    ¬((1 : Int) = 0 ∧ (0 : Int) = 0)
    ∧ ([] : List Row).all
        (fun r => !(matchesAll (getBatchSpecResolutionJobQueryPreds ⟨1, 0⟩) r)) = true
    ∧ (GetBatchSpecResolutionJob [] ⟨1, 0⟩).1 = .error .ErrNoResults :=
  ⟨by decide, rfl, get_not_found_returns_ErrNoResults [] ⟨1, 0⟩ (by decide) rfl⟩

/-- C3: creation defaults.  For every job handed to the create inserter: a
zero `CreatedAt` is replaced by the current store time, a zero `UpdatedAt`
by the (possibly just-set) `CreatedAt`, an empty `State` is inserted as
`queued`; non-zero and non-empty inputs are inserted unchanged, and the
defaulted timestamps are written back to the job. -/
theorem create_assigns_defaults (now : Time) (wj : BatchSpecResolutionJob) :
    (createBatchSpecResolutionJobValues now wj).2.created_at
        = (if wj.CreatedAt = 0 then now else wj.CreatedAt)
    ∧ (createBatchSpecResolutionJobValues now wj).2.updated_at
        = (if wj.UpdatedAt = 0 then (createBatchSpecResolutionJobValues now wj).2.created_at
           else wj.UpdatedAt)
    ∧ (createBatchSpecResolutionJobValues now wj).2.state
        = (if wj.State = "" then BatchSpecResolutionJobStateQueued else wj.State)
    ∧ (createBatchSpecResolutionJobValues now wj).2.batch_spec_id = wj.BatchSpecID
    ∧ (createBatchSpecResolutionJobValues now wj).2.allow_unsupported = wj.AllowUnsupported
    ∧ (createBatchSpecResolutionJobValues now wj).2.allow_ignored = wj.AllowIgnored
    ∧ (createBatchSpecResolutionJobValues now wj).1.CreatedAt
        = (createBatchSpecResolutionJobValues now wj).2.created_at
    ∧ (createBatchSpecResolutionJobValues now wj).1.UpdatedAt
        = (createBatchSpecResolutionJobValues now wj).2.updated_at := by
  simp [createBatchSpecResolutionJobValues]

/-- C4: for every table whose ids are unique (the primary key invariant) and
every filter options value, the job sequence returned by a list call is
ordered by strictly ascending id. -/
theorem list_sorted_by_ascending_id (table : List Row) (opts : ListBatchSpecResolutionJobsOpts)
    (h : (table.map Row.id).Nodup) :
    (listedJobs table opts).Pairwise (fun a b => a.ID < b.ID) := by
  rw [listedJobs_eq, List.pairwise_map]
  set fl := table.filter (matchesAll (listBatchSpecResolutionJobsQueryPreds opts)) with hfl
  have hs : List.Pairwise rowIdLE (List.insertionSort rowIdLE fl) :=
    List.sorted_insertionSort rowIdLE fl
  have hnd : (List.insertionSort rowIdLE fl).Pairwise (fun a b => a.id ≠ b.id) := by
    have hsub : (fl.map Row.id).Sublist (table.map Row.id) :=
      (List.filter_sublist table).map Row.id
    have hnd2 : (fl.map Row.id).Nodup := List.Nodup.sublist hsub h
    have hperm : ((List.insertionSort rowIdLE fl).map Row.id).Perm (fl.map Row.id) :=
      (List.perm_insertionSort rowIdLE fl).map Row.id
    have hnd3 : ((List.insertionSort rowIdLE fl).map Row.id).Nodup :=
      hperm.nodup_iff.mpr hnd2
    exact List.pairwise_map.mp hnd3
  exact (hs.and hnd).imp (fun hab => lt_of_le_of_ne hab.1 hab.2)

theorem list_sorted_by_ascending_id_witness :
    (([⟨2, 8, false, false, "queued", none, none, none, none, 0, 0, [], "", 2, 2⟩,
       ⟨1, 7, false, false, "queued", none, none, none, none, 0, 0, [], "", 1, 1⟩] : List Row).map
        Row.id).Nodup
    ∧ (listedJobs
        [⟨2, 8, false, false, "queued", none, none, none, none, 0, 0, [], "", 2, 2⟩,
         ⟨1, 7, false, false, "queued", none, none, none, none, 0, 0, [], "", 1, 1⟩]
        ⟨"", ""⟩).Pairwise (fun a b => a.ID < b.ID) :=
  ⟨by decide,
   list_sorted_by_ascending_id
     [⟨2, 8, false, false, "queued", none, none, none, none, 0, 0, [], "", 2, 2⟩,
      ⟨1, 7, false, false, "queued", none, none, none, none, 0, 0, [], "", 1, 1⟩]
     ⟨"", ""⟩ (by decide)⟩

/-- C5: every job a list call returns matches the non-empty options (state
and worker hostname), and with both options empty the predicate degenerates
to `TRUE` and every stored job is returned. -/
theorem list_filter_semantics (table : List Row) (opts : ListBatchSpecResolutionJobsOpts) :
    (listedJobs table opts).all (fun j =>
        ((opts.State == "") || (j.State == opts.State)) &&
        ((opts.WorkerHostname == "") || (j.WorkerHostname == opts.WorkerHostname))) = true
    ∧ listBatchSpecResolutionJobsQueryPreds ⟨"", ""⟩ = [fun _ => true]
    ∧ (listedJobs table ⟨"", ""⟩).Perm (table.map scanBatchSpecResolutionJob) := by
  refine ⟨?_, rfl, ?_⟩
  · rw [List.all_eq_true]
    intro j hj
    rw [listedJobs_eq] at hj
    obtain ⟨r, hrs, rfl⟩ := List.mem_map.mp hj
    have hrf : r ∈ table.filter (matchesAll (listBatchSpecResolutionJobsQueryPreds opts)) :=
      (List.mem_insertionSort _).mp hrs
    have hm : matchesAll (listBatchSpecResolutionJobsQueryPreds opts) r = true :=
      (List.mem_filter.mp hrf).2
    by_cases h1 : opts.State = "" <;> by_cases h2 : opts.WorkerHostname = "" <;>
      simp [listBatchSpecResolutionJobsQueryPreds, matchesAll, h1, h2,
        scanBatchSpecResolutionJob] at hm ⊢ <;>
      simp [hm]
  · rw [listedJobs_eq]
    have h1 : listBatchSpecResolutionJobsQueryPreds ⟨"", ""⟩ = [fun _ => true] := rfl
    rw [h1]
    have h2 : table.filter (matchesAll [fun _ => true]) = table :=
      List.filter_eq_self.mpr (fun a _ => rfl)
    rw [h2]
    exact (List.perm_insertionSort rowIdLE table).map scanBatchSpecResolutionJob

/-- C6: a successful get returns exactly one job — the result set of its
`LIMIT 1` query never holds more than one row — and that job satisfies
every non-zero option: a non-zero `opts.ID` equals the returned id, a
non-zero `opts.BatchSpecID` equals the returned batch spec id. -/
theorem get_returns_job_matching_opts (table : List Row) (opts : GetBatchSpecResolutionJobOpts)
    (job : BatchSpecResolutionJob)
    (h : (GetBatchSpecResolutionJob table opts).1 = .ok job) :
    (opts.ID ≠ 0 → job.ID = opts.ID)
    ∧ (opts.BatchSpecID ≠ 0 → job.BatchSpecID = opts.BatchSpecID)
    ∧ ((runSelect (getBatchSpecResolutionJobQueryPreds opts) false (some 1)
        table).1.toOption.getD []).length ≤ 1 := by
  have hlim : ((runSelect (getBatchSpecResolutionJobQueryPreds opts) false (some 1)
      table).1.toOption.getD []).length ≤ 1 := by
    rw [runSelect]
    by_cases hpe : (getBatchSpecResolutionJobQueryPreds opts).isEmpty
    · simp [hpe, Except.toOption]
    · simp [hpe, Except.toOption, List.length_take]
  refine ⟨?_, ?_, hlim⟩ <;> unfold GetBatchSpecResolutionJob at h
  case _ =>
    intro hID
    rcases hq : (runSelect (getBatchSpecResolutionJobQueryPreds opts) false (some 1) table).1
      with e | rows
    · rw [hq] at h; exact absurd h (by simp)
    · rw [hq] at h
      cases rows with
      | nil => simp [zeroBatchSpecResolutionJob] at h
      | cons r rest =>
        by_cases hid : (scanBatchSpecResolutionJob r).ID = 0
        · simp [hid] at h
        · simp [hid] at h
          subst h
          rw [runSelect] at hq
          by_cases hpe : (getBatchSpecResolutionJobQueryPreds opts).isEmpty
          · rw [if_pos hpe] at hq; exact absurd hq (by simp)
          · rw [if_neg hpe] at hq
            simp at hq
            have hmem : r ∈ table.filter
                (matchesAll (getBatchSpecResolutionJobQueryPreds opts)) :=
              List.mem_of_mem_take (hq ▸ List.mem_cons_self r rest)
            have hall := (List.mem_filter.mp hmem).2
            unfold matchesAll at hall
            have hpin : (fun row => row.id == opts.ID)
                ∈ getBatchSpecResolutionJobQueryPreds opts := by
              unfold getBatchSpecResolutionJobQueryPreds
              simp [hID]
            have hbeq := List.all_eq_true.mp hall _ hpin
            have hr : r.id = opts.ID := by simpa using hbeq
            show (scanBatchSpecResolutionJob r).ID = opts.ID
            simpa [scanBatchSpecResolutionJob] using hr
  case _ =>
    intro hBS
    rcases hq : (runSelect (getBatchSpecResolutionJobQueryPreds opts) false (some 1) table).1
      with e | rows
    · rw [hq] at h; exact absurd h (by simp)
    · rw [hq] at h
      cases rows with
      | nil => simp [zeroBatchSpecResolutionJob] at h
      | cons r rest =>
        by_cases hid : (scanBatchSpecResolutionJob r).ID = 0
        · simp [hid] at h
        · simp [hid] at h
          subst h
          rw [runSelect] at hq
          by_cases hpe : (getBatchSpecResolutionJobQueryPreds opts).isEmpty
          · rw [if_pos hpe] at hq; exact absurd hq (by simp)
          · rw [if_neg hpe] at hq
            simp at hq
            have hmem : r ∈ table.filter
                (matchesAll (getBatchSpecResolutionJobQueryPreds opts)) :=
              List.mem_of_mem_take (hq ▸ List.mem_cons_self r rest)
            have hall := (List.mem_filter.mp hmem).2
            unfold matchesAll at hall
            have hpin : (fun row => row.batch_spec_id == opts.BatchSpecID)
                ∈ getBatchSpecResolutionJobQueryPreds opts := by
              unfold getBatchSpecResolutionJobQueryPreds
              simp [hBS]
            have hbeq := List.all_eq_true.mp hall _ hpin
            have hr : r.batch_spec_id = opts.BatchSpecID := by simpa using hbeq
            show (scanBatchSpecResolutionJob r).BatchSpecID = opts.BatchSpecID
            simpa [scanBatchSpecResolutionJob] using hr

theorem get_returns_job_matching_opts_witness :
    ((5 : Int) ≠ 0 →
      (scanBatchSpecResolutionJob
        ⟨5, 7, false, false, "queued", none, none, none, none, 0, 0, [], "", 1, 1⟩).ID = 5)
    ∧ ((0 : Int) ≠ 0 →
      (scanBatchSpecResolutionJob
        ⟨5, 7, false, false, "queued", none, none, none, none, 0, 0, [], "", 1, 1⟩).BatchSpecID = 0)
    ∧ ((runSelect (getBatchSpecResolutionJobQueryPreds ⟨5, 0⟩) false (some 1)
        [⟨5, 7, false, false, "queued", none, none, none, none, 0, 0, [], "", 1, 1⟩]).1.toOption.getD
          []).length ≤ 1 :=
  get_returns_job_matching_opts
    [⟨5, 7, false, false, "queued", none, none, none, none, 0, 0, [], "", 1, 1⟩] ⟨5, 0⟩
    (scanBatchSpecResolutionJob
      ⟨5, 7, false, false, "queued", none, none, none, none, 0, 0, [], "", 1, 1⟩) (by decide)

/-- C7: get and list are read-only — the table after either call is exactly
the table before it. -/
theorem get_and_list_leave_table_unchanged (table : List Row)
    (gOpts : GetBatchSpecResolutionJobOpts) (lOpts : ListBatchSpecResolutionJobsOpts) :
    (GetBatchSpecResolutionJob table gOpts).2 = table
    ∧ (ListBatchSpecResolutionJobs table lOpts).2 = table :=
  ⟨runSelect_snd (getBatchSpecResolutionJobQueryPreds gOpts) false (some 1) table,
   runSelect_snd (listBatchSpecResolutionJobsQueryPreds lOpts) true none table⟩

/-- C8: the scanned `FailureMessage` pointer is nil exactly when the stored
`failure_message` column is NULL or the empty string; otherwise it carries
the stored non-empty string — so a NULL and an empty-string message are
indistinguishable in the scanned job. -/
theorem scan_failure_message (r : Row) :
    (scanBatchSpecResolutionJob r).FailureMessage
        = (match r.failure_message with
           | none => none
           | some s => if s = "" then none else some s)
    ∧ ((scanBatchSpecResolutionJob r).FailureMessage = none
        ↔ r.failure_message = none ∨ r.failure_message = some "") := by
  cases h : r.failure_message with
  | none => simp [scanBatchSpecResolutionJob, h]
  | some s =>
    by_cases hs : s = "" <;> simp [scanBatchSpecResolutionJob, h, hs]

/-- C9: with both options zero the get query builder joins an empty
predicate list (no `TRUE` fallback, unlike the list builder), so the WHERE
clause is empty and such a call can never succeed in returning a job. -/
theorem get_with_zero_opts_never_succeeds (table : List Row) :
    getBatchSpecResolutionJobQueryPreds ⟨0, 0⟩ = []
    ∧ listBatchSpecResolutionJobsQueryPreds ⟨"", ""⟩ ≠ []
    ∧ ∀ j, (GetBatchSpecResolutionJob table ⟨0, 0⟩).1 ≠ .ok j := by
  refine ⟨rfl, by simp [listBatchSpecResolutionJobsQueryPreds], ?_⟩
  intro j
  unfold GetBatchSpecResolutionJob runSelect
  simp [getBatchSpecResolutionJobQueryPreds]

/-- C10: a list call matching no stored row returns a non-nil empty slice
with a nil error, and scanning the first job of an empty row set yields
`(nil, false, nil)` — absence is signalled by the boolean, not an error. -/
theorem list_no_match_returns_empty (table : List Row) (opts : ListBatchSpecResolutionJobsOpts)
    (h : table.all
      (fun r => !(matchesAll (listBatchSpecResolutionJobsQueryPreds opts) r)) = true) :
    (ListBatchSpecResolutionJobs table opts).1 = (some [], none)
    ∧ ScanFirstBatchSpecResolutionJob [] none = (none, false, none) := by
  refine ⟨?_, rfl⟩
  have hfil := filter_nil_of_all_negated table (listBatchSpecResolutionJobsQueryPreds opts) h
  unfold ListBatchSpecResolutionJobs runSelect
  simp [listPreds_isEmpty_false opts, hfil]

theorem list_no_match_returns_empty_witness :
    ([⟨1, 7, false, false, "completed", none, none, none, none, 0, 0, [], "", 1, 1⟩] : List Row).all
        (fun r => !(matchesAll (listBatchSpecResolutionJobsQueryPreds ⟨"queued", ""⟩) r)) = true
    ∧ ((ListBatchSpecResolutionJobs
          [⟨1, 7, false, false, "completed", none, none, none, none, 0, 0, [], "", 1, 1⟩]
          ⟨"queued", ""⟩).1 = (some [], none)
       ∧ ScanFirstBatchSpecResolutionJob [] none = (none, false, none)) :=
  ⟨by decide,
   list_no_match_returns_empty
     [⟨1, 7, false, false, "completed", none, none, none, none, 0, 0, [], "", 1, 1⟩]
     ⟨"queued", ""⟩ (by decide)⟩

end BatchesStore
